import Mathlib

/-!
Verification development for the DustRacing2D sources in this repository.

Two parts are modelled:

* The rigid-body physics integrator `MCPhysicsComponent`.  The repository
  contains only its interface (`src/src/game/MiniCore/src/Physics/mcphysicscomponent.hh`,
  declarations and doc comments); the implementation file
  `mcphysicscomponent.cc` is not part of the sources here, so the operations
  are modelled from the specification (spec.md sections 3, 4.1, 7, 8), as
  marked on each definition.  Floating-point scalars are embedded as rationals;
  the square root used by the max-speed clamp is a parameter of the model
  (`IntegrationParams.sqrtFn`), with exactness hypotheses stated where a
  theorem needs them.  Comparisons of Euclidean norms are embedded exactly via
  squared norms (`|v| < c` iff `normSq v < c * c` for `c > 0`).

* The car gameplay logic `Car` from `src/src/game/car.cpp`, embedded directly
  from the source (steering, braking).
-/

/-- A 3-component vector of rationals, embedding the engine's MCVector3dF. -/
@[ext] structure Vec3 where
  x : ℚ
  y : ℚ
  z : ℚ
deriving DecidableEq

instance : Add Vec3 := ⟨fun a b => ⟨a.x + b.x, a.y + b.y, a.z + b.z⟩⟩

instance : Sub Vec3 := ⟨fun a b => ⟨a.x - b.x, a.y - b.y, a.z - b.z⟩⟩

instance : Neg Vec3 := ⟨fun a => ⟨-a.x, -a.y, -a.z⟩⟩

instance : Zero Vec3 := ⟨⟨0, 0, 0⟩⟩

instance : SMul ℚ Vec3 := ⟨fun c a => ⟨c * a.x, c * a.y, c * a.z⟩⟩

@[simp] theorem Vec3.add_x (a b : Vec3) : (a + b).x = a.x + b.x := rfl

@[simp] theorem Vec3.add_y (a b : Vec3) : (a + b).y = a.y + b.y := rfl

@[simp] theorem Vec3.add_z (a b : Vec3) : (a + b).z = a.z + b.z := rfl

@[simp] theorem Vec3.sub_x (a b : Vec3) : (a - b).x = a.x - b.x := rfl

@[simp] theorem Vec3.sub_y (a b : Vec3) : (a - b).y = a.y - b.y := rfl

@[simp] theorem Vec3.sub_z (a b : Vec3) : (a - b).z = a.z - b.z := rfl

@[simp] theorem Vec3.smul_x (c : ℚ) (a : Vec3) : (c • a).x = c * a.x := rfl

@[simp] theorem Vec3.smul_y (c : ℚ) (a : Vec3) : (c • a).y = c * a.y := rfl

@[simp] theorem Vec3.smul_z (c : ℚ) (a : Vec3) : (c • a).z = c * a.z := rfl

@[simp] theorem Vec3.zero_x : (0 : Vec3).x = 0 := rfl

@[simp] theorem Vec3.zero_y : (0 : Vec3).y = 0 := rfl

@[simp] theorem Vec3.zero_z : (0 : Vec3).z = 0 := rfl

/-- Squared Euclidean norm of a vector; used to embed norm comparisons exactly. -/
def Vec3.normSq (v : Vec3) : ℚ := v.x * v.x + v.y * v.y + v.z * v.z

@[simp] theorem Vec3.normSq_zero : (0 : Vec3).normSq = 0 := by
  simp [Vec3.normSq]

theorem Vec3.normSq_nonneg (v : Vec3) : 0 ≤ v.normSq := by
  have hx := mul_self_nonneg v.x
  have hy := mul_self_nonneg v.y
  have hz := mul_self_nonneg v.z
  unfold Vec3.normSq
  linarith

theorem Vec3.normSq_smul (c : ℚ) (v : Vec3) : (c • v).normSq = c * c * v.normSq := by
  cases v with
  | mk x y z => simp [Vec3.normSq]; ring

namespace MCP

/-- Modelled from the spec: the state of `MCPhysicsComponent`
(its member variables are listed in mcphysicscomponent.hh, the
implementation file mcphysicscomponent.cc is not in the sources).
Field names follow the spec's PhysicsState data model (spec.md section 3). -/
structure PhysicsState where
  velocity : Vec3
  angularVelocity : ℚ
  acceleration : Vec3
  accumulatedForce : Vec3
  accumulatedTorque : ℚ
  linearImpulse : Vec3
  angularImpulse : ℚ
  mass : ℚ
  invMass : ℚ
  momentOfInertia : ℚ
  invMomentOfInertia : ℚ
  restitution : ℚ
  linearDamping : ℚ
  angularDamping : ℚ
  maxSpeed : ℚ
  xyFriction : ℚ
  sleeping : Bool
  sleepPrevented : Bool
  stationary : Bool
  integrating : Bool
  linearSleepLimit : ℚ
  angularSleepLimit : ℚ
  sleepCount : Nat
  collisionTag : Int
  neverCollideWithTag : Int
deriving DecidableEq

/-- Parameters of the model that the spec leaves implementation-defined:
the floating-point square root used by the max-speed clamp, and the
consecutive-frame threshold for falling asleep (spec.md section 9 leaves the
threshold open as an implementation constant). -/
structure IntegrationParams where
  sqrtFn : ℚ → ℚ
  sleepFrames : Nat

/-- Modelled from the spec: `setMass` (implementation missing from src).
Header doc: stationary=true sets inverse mass to zero ("infinite" mass).
Spec section 7(a): a non-positive mass not flagged stationary is rejected at
the setter boundary, never propagated into the inverse-mass division. -/
def setMass (newMass : ℚ) (stationary : Bool) (s : PhysicsState) : PhysicsState :=
  if stationary then
    { s with mass := newMass, invMass := 0, stationary := true }
  else if newMass ≤ 0 then s
  else { s with mass := newMass, invMass := 1 / newMass, stationary := false }

/-- Modelled from the spec: `setMomentOfInertia` (implementation missing from
src).  Spec section 3: same zero/inverse invariant as mass; spec section 7(a):
a non-positive moment of inertia is rejected at the setter boundary. -/
def setMomentOfInertia (moi : ℚ) (s : PhysicsState) : PhysicsState :=
  if moi ≤ 0 then s
  else if s.stationary then
    { s with momentOfInertia := moi, invMomentOfInertia := 0 }
  else { s with momentOfInertia := moi, invMomentOfInertia := 1 / moi }

/-- Modelled from the spec: `addForce` accumulates into `accumulatedForce`
(spec section 4.1); implementation missing from src. -/
def addForce (f : Vec3) (s : PhysicsState) : PhysicsState :=
  { s with accumulatedForce := s.accumulatedForce + f }

/-- Modelled from the spec: `addForce` with a position converts the off-center
component into a torque contribution (2D scalar via the z-component of the
cross product of the arm and the force); implementation missing from src.
The arm is the offset of the force position from the center of mass, which the
owning object supplies. -/
def addForceAt (f arm : Vec3) (s : PhysicsState) : PhysicsState :=
  { s with accumulatedForce := s.accumulatedForce + f,
           accumulatedTorque := s.accumulatedTorque + (arm.x * f.y - arm.y * f.x) }

/-- Modelled from the spec: `addTorque` accumulates into `accumulatedTorque`
(spec section 4.1); implementation missing from src. -/
def addTorque (t : ℚ) (s : PhysicsState) : PhysicsState :=
  { s with accumulatedTorque := s.accumulatedTorque + t }

/-- Modelled from the spec: `addImpulse` (implementation missing from src).
Spec section 4.1: the impulse accumulates into `linearImpulse`; a collision
impulse always wakes a sleeping object; a non-collision impulse wakes a
sleeping object only if its magnitude exceeds the sleep threshold and is
otherwise dropped (spec section 9 fixes "dropped" as the default). -/
def addImpulse (imp : Vec3) (isCollision : Bool) (s : PhysicsState) : PhysicsState :=
  if s.sleeping then
    if isCollision = true ∨ s.linearSleepLimit * s.linearSleepLimit < imp.normSq then
      { s with sleeping := false, sleepCount := 0, linearImpulse := s.linearImpulse + imp }
    else s
  else { s with linearImpulse := s.linearImpulse + imp }

/-- Modelled from the spec: `addAngularImpulse`, analogous to `addImpulse`
for the angular axis (implementation missing from src). -/
def addAngularImpulse (imp : ℚ) (isCollision : Bool) (s : PhysicsState) : PhysicsState :=
  if s.sleeping then
    if isCollision = true ∨ s.angularSleepLimit < |imp| then
      { s with sleeping := false, sleepCount := 0, angularImpulse := s.angularImpulse + imp }
    else s
  else { s with angularImpulse := s.angularImpulse + imp }

/-- Modelled from the spec: `clearForces` resets the force and torque
accumulators without integrating (spec section 4.1); implementation missing
from src. -/
def clearForces (s : PhysicsState) : PhysicsState :=
  { s with accumulatedForce := 0, accumulatedTorque := 0 }

/-- Modelled from the spec: the accumulator clearing performed by `stepTime`
step 5 (also on the stationary early exit, which "still clears accumulators");
implementation missing from src. -/
def clearAccumulators (s : PhysicsState) : PhysicsState :=
  { s with accumulatedForce := 0, accumulatedTorque := 0,
           linearImpulse := 0, angularImpulse := 0 }

/-- Modelled from the spec: `setVelocity` (implementation missing from src). -/
def setVelocity (v : Vec3) (s : PhysicsState) : PhysicsState :=
  { s with velocity := v }

/-- Modelled from the spec: `setAngularVelocity` (implementation missing from src). -/
def setAngularVelocity (w : ℚ) (s : PhysicsState) : PhysicsState :=
  { s with angularVelocity := w }

/-- Modelled from the spec: `setAcceleration` (implementation missing from src). -/
def setAcceleration (a : Vec3) (s : PhysicsState) : PhysicsState :=
  { s with acceleration := a }

/-- Modelled from the spec: `setMaxSpeed` (implementation missing from src). -/
def setMaxSpeed (m : ℚ) (s : PhysicsState) : PhysicsState :=
  { s with maxSpeed := m }

/-- Modelled from the spec: `setRestitution` (implementation missing from src). -/
def setRestitution (r : ℚ) (s : PhysicsState) : PhysicsState :=
  { s with restitution := r }

/-- Modelled from the spec: `setXYFriction` (deprecated legacy setter, kept as
a stored field only; implementation missing from src). -/
def setXYFriction (f : ℚ) (s : PhysicsState) : PhysicsState :=
  { s with xyFriction := f }

/-- Modelled from the spec: `setSleepLimits` (implementation missing from src). -/
def setSleepLimits (lin ang : ℚ) (s : PhysicsState) : PhysicsState :=
  { s with linearSleepLimit := lin, angularSleepLimit := ang }

/-- Modelled from the spec: `setLinearDamping` (implementation missing from src). -/
def setLinearDamping (d : ℚ) (s : PhysicsState) : PhysicsState :=
  { s with linearDamping := d }

/-- Modelled from the spec: `setAngularDamping` (implementation missing from src). -/
def setAngularDamping (d : ℚ) (s : PhysicsState) : PhysicsState :=
  { s with angularDamping := d }

/-- Modelled from the spec: `preventSleeping` (implementation missing from
src).  Spec state machine: `preventSleeping(true)` wakes a sleeping object. -/
def preventSleeping (flag : Bool) (s : PhysicsState) : PhysicsState :=
  if flag then { s with sleepPrevented := true, sleeping := false, sleepCount := 0 }
  else { s with sleepPrevented := false }

/-- Modelled from the spec: `toggleSleep` (implementation missing from src). -/
def toggleSleep (state : Bool) (s : PhysicsState) : PhysicsState :=
  if state then { s with sleeping := true }
  else { s with sleeping := false, sleepCount := 0 }

/-- Modelled from the spec: `reset` returns the component to its initial
post-construction values (zero velocities and accumulators, not sleeping, not
integrating) without altering mass/inertia/damping/restitution configuration
(spec section 4.1); implementation missing from src. -/
def reset (s : PhysicsState) : PhysicsState :=
  { s with velocity := 0, angularVelocity := 0, accumulatedForce := 0,
           accumulatedTorque := 0, linearImpulse := 0, angularImpulse := 0,
           sleeping := false, integrating := false, sleepCount := 0 }

/-- The linear velocity after the force and constant-acceleration term of
integration step 3, before impulses are applied. -/
def preImpulseVelocity (step : ℚ) (s : PhysicsState) : Vec3 :=
  s.velocity + step • (s.invMass • s.accumulatedForce + s.acceleration)

/-- The linear velocity after impulses are applied, before damping
(integration step 3: impulses bypass the step time-scaling). -/
def preDampingVelocity (step : ℚ) (s : PhysicsState) : Vec3 :=
  preImpulseVelocity step s + s.invMass • s.linearImpulse

/-- The linear velocity after damping, before the max-speed clamp. -/
def preClampVelocity (step : ℚ) (s : PhysicsState) : Vec3 :=
  s.linearDamping • preDampingVelocity step s

/-- Modelled from the spec: the max-speed clamp at the end of linear
integration (spec section 4.1 step 3): if `maxSpeed > 0` and the speed exceeds
`maxSpeed`, rescale the velocity to magnitude `maxSpeed`, direction preserved;
a `maxSpeed ≤ 0` means unclamped, and the comparison guard short-circuits the
zero-length case away from the division (spec section 7(c)).  The square root
is a model parameter; the comparison is embedded exactly via squared norms. -/
def clampSpeed (sqrtFn : ℚ → ℚ) (maxSpeed : ℚ) (v : Vec3) : Vec3 :=
  if 0 < maxSpeed ∧ maxSpeed * maxSpeed < v.normSq then
    (maxSpeed / sqrtFn v.normSq) • v
  else v

/-- Modelled from the spec: `integrateLinear` (spec section 4.1 step 3);
implementation missing from src. -/
def integrateLinear (p : IntegrationParams) (step : ℚ) (s : PhysicsState) : PhysicsState :=
  { s with velocity := clampSpeed p.sqrtFn s.maxSpeed (preClampVelocity step s) }

/-- Modelled from the spec: `integrateAngular` (spec section 4.1 step 4);
implementation missing from src. -/
def integrateAngular (step : ℚ) (s : PhysicsState) : PhysicsState :=
  { s with angularVelocity :=
      (s.angularVelocity + s.accumulatedTorque * s.invMomentOfInertia * step
        + s.angularImpulse * s.invMomentOfInertia) * s.angularDamping }

/-- Both sleep thresholds hold: the linear speed is below `linearSleepLimit`
(embedded exactly via squared norms) and the absolute angular velocity is
below `angularSleepLimit`. -/
def belowLimits (s : PhysicsState) : Prop :=
  s.velocity.normSq < s.linearSleepLimit * s.linearSleepLimit
    ∧ |s.angularVelocity| < s.angularSleepLimit

instance (s : PhysicsState) : Decidable (belowLimits s) :=
  inferInstanceAs
    (Decidable (s.velocity.normSq < s.linearSleepLimit * s.linearSleepLimit
      ∧ |s.angularVelocity| < s.angularSleepLimit))

/-- Modelled from the spec: the sleep evaluation at the end of `stepTime`
(spec section 4.1 step 6): while below both limits and sleep is not prevented
the consecutive-frame counter grows, and once it exceeds the (implementation
defined) frame threshold the object falls asleep and both velocities are
zeroed; otherwise the counter resets and the object is awake. -/
def sleepEval (frames : Nat) (s : PhysicsState) : PhysicsState :=
  if belowLimits s ∧ s.sleepPrevented = false then
    if frames < s.sleepCount + 1 then
      { s with sleepCount := s.sleepCount + 1, sleeping := true,
               velocity := 0, angularVelocity := 0 }
    else { s with sleepCount := s.sleepCount + 1 }
  else { s with sleepCount := 0, sleeping := false }

/-- Modelled from the spec: the body of an integrating `stepTime` call, steps
3 to 5 (linear integration, angular integration, accumulator clearing);
implementation missing from src. -/
def integratedState (p : IntegrationParams) (step : ℚ) (s : PhysicsState) : PhysicsState :=
  clearAccumulators (integrateAngular step (integrateLinear p step s))

/-- Modelled from the spec: `stepTime` (spec section 4.1 steps 1-7);
implementation missing from src.  A stationary object skips all velocity
mutation but still clears the accumulators (step 1); a sleeping object whose
sleep is not prevented skips integration (step 2); otherwise linear and
angular integration run, the accumulators are cleared and the sleep state is
reevaluated.  The re-entrancy flag (steps "set integrating" / step 7 "clear
integrating") has no net effect on the post-call state of a legal call and is
not mutated by the model.  The integer step argument of the C++ interface is
embedded as its rational value. -/
def stepTime (p : IntegrationParams) (step : ℚ) (s : PhysicsState) : PhysicsState :=
  if s.stationary then clearAccumulators s
  else if s.sleeping = true ∧ s.sleepPrevented = false then clearAccumulators s
  else sleepEval p.sleepFrames (integratedState p step s)

/-- Iterated `stepTime`: `stepN p step n s` is the state after `n` consecutive
calls with the same step size. -/
def stepN (p : IntegrationParams) (step : ℚ) : Nat → PhysicsState → PhysicsState
  | 0, s => s
  | n + 1, s => stepTime p step (stepN p step n s)

/-- The mass/inverse-mass invariant of the spec (section 3): `invMass = 0`
exactly for stationary objects, and otherwise `invMass = 1/mass` with a
positive mass. -/
def PhysInv (s : PhysicsState) : Prop :=
  (s.invMass = 0 ↔ s.stationary = true)
    ∧ (s.stationary = false → s.invMass = 1 / s.mass ∧ 0 < s.mass)

instance (s : PhysicsState) : Decidable (PhysInv s) :=
  inferInstanceAs
    (Decidable ((s.invMass = 0 ↔ s.stationary = true)
      ∧ (s.stationary = false → s.invMass = 1 / s.mass ∧ 0 < s.mass)))

/-- One call of the public mutating API of the physics component, as a step
relation: these are the operations a collaborator can perform on a component
between construction and destruction. -/
inductive PStep : PhysicsState → PhysicsState → Prop
  | ofSetMass (m : ℚ) (st : Bool) (s : PhysicsState) : PStep s (setMass m st s)
  | ofSetMomentOfInertia (i : ℚ) (s : PhysicsState) : PStep s (setMomentOfInertia i s)
  | ofAddForce (f : Vec3) (s : PhysicsState) : PStep s (addForce f s)
  | ofAddForceAt (f arm : Vec3) (s : PhysicsState) : PStep s (addForceAt f arm s)
  | ofAddTorque (t : ℚ) (s : PhysicsState) : PStep s (addTorque t s)
  | ofAddImpulse (i : Vec3) (c : Bool) (s : PhysicsState) : PStep s (addImpulse i c s)
  | ofAddAngularImpulse (i : ℚ) (c : Bool) (s : PhysicsState) : PStep s (addAngularImpulse i c s)
  | ofClearForces (s : PhysicsState) : PStep s (clearForces s)
  | ofSetVelocity (v : Vec3) (s : PhysicsState) : PStep s (setVelocity v s)
  | ofSetAngularVelocity (w : ℚ) (s : PhysicsState) : PStep s (setAngularVelocity w s)
  | ofSetAcceleration (a : Vec3) (s : PhysicsState) : PStep s (setAcceleration a s)
  | ofSetMaxSpeed (m : ℚ) (s : PhysicsState) : PStep s (setMaxSpeed m s)
  | ofSetRestitution (r : ℚ) (s : PhysicsState) : PStep s (setRestitution r s)
  | ofSetXYFriction (f : ℚ) (s : PhysicsState) : PStep s (setXYFriction f s)
  | ofSetSleepLimits (l a : ℚ) (s : PhysicsState) : PStep s (setSleepLimits l a s)
  | ofSetLinearDamping (d : ℚ) (s : PhysicsState) : PStep s (setLinearDamping d s)
  | ofSetAngularDamping (d : ℚ) (s : PhysicsState) : PStep s (setAngularDamping d s)
  | ofPreventSleeping (b : Bool) (s : PhysicsState) : PStep s (preventSleeping b s)
  | ofToggleSleep (b : Bool) (s : PhysicsState) : PStep s (toggleSleep b s)
  | ofReset (s : PhysicsState) : PStep s (reset s)
  | ofStepTime (p : IntegrationParams) (t : ℚ) (s : PhysicsState) : PStep s (stepTime p t s)

/-- Reachability along any sequence of public API calls. -/
def PhysReach (s t : PhysicsState) : Prop := Relation.ReflTransGen PStep s t

end MCP

/-- The gameplay-relevant state of `Car` (src/src/game/car.cpp).  The fields
embed the member variables that the steering and braking code reads and
writes; `dx`/`dy` hold the heading cosine/sine that `Car::stepTime` computes
from the body angle, `forceX`/`forceY` accumulate the force passed to the
inherited `MCObject::addForce`, `rotationalImpulse` accumulates the impulses
passed to `addRotationalImpulse`, and `brakingFrictionEnabled` mirrors the
enable flag of the braking friction generator `m_pBrakingFriction`. -/
structure Car where
  tireAngle : Int
  speedInKmh : Int
  accelerating : Bool
  braking : Bool
  reverse : Bool
  turnLeftFlag : Bool
  turnRightFlag : Bool
  brakingFrictionEnabled : Bool
  power : ℚ
  turningImpulse : ℚ
  dx : ℚ
  dy : ℚ
  forceX : ℚ
  forceY : ℚ
  rotationalImpulse : ℚ
deriving DecidableEq

/-- Embeds `Car::turnLeft` (car.cpp lines 123-133): bump the tire angle while
it is below 45, set the turn-left flag, and add a rotational impulse when the
speed magnitude exceeds 1 km/h. -/
def Car.turnLeft (c : Car) : Car :=
  let c1 := if c.tireAngle < 45 then { c with tireAngle := c.tireAngle + 1 } else c
  let c2 := { c1 with turnLeftFlag := true }
  if 1 < |c2.speedInKmh| then
    { c2 with rotationalImpulse := c2.rotationalImpulse + c2.turningImpulse }
  else c2

/-- Embeds `Car::turnRight` (car.cpp lines 135-145): drop the tire angle while
it is above -45, set the turn-right flag, and add a negative rotational
impulse when the speed magnitude exceeds 1 km/h. -/
def Car.turnRight (c : Car) : Car :=
  let c1 := if -45 < c.tireAngle then { c with tireAngle := c.tireAngle - 1 } else c
  let c2 := { c1 with turnRightFlag := true }
  if 1 < |c2.speedInKmh| then
    { c2 with rotationalImpulse := c2.rotationalImpulse - c2.turningImpulse }
  else c2

/-- Embeds `Car::noSteering` (car.cpp lines 189-202): move the tire angle one
unit toward zero and clear both turn flags. -/
def Car.noSteering (c : Car) : Car :=
  let c1 :=
    if c.tireAngle < 0 then { c with tireAngle := c.tireAngle + 1 }
    else if 0 < c.tireAngle then { c with tireAngle := c.tireAngle - 1 }
    else c
  { c1 with turnLeftFlag := false, turnRightFlag := false }

/-- Embeds `Car::brake` (car.cpp lines 159-178): clear the accelerating flag;
enter reverse mode when the speed is below 1 km/h; in reverse mode add the
force `-(dx, dy) * power / 2`, otherwise set the braking flag and enable the
braking friction generator. -/
def Car.brake (c : Car) : Car :=
  let c1 := { c with accelerating := false }
  let c2 := if c1.speedInKmh < 1 then { c1 with reverse := true } else c1
  if c2.reverse then
    { c2 with forceX := c2.forceX + -(c2.dx * c2.power) / 2,
              forceY := c2.forceY + -(c2.dy * c2.power) / 2 }
  else
    { c2 with braking := true, brakingFrictionEnabled := true }

/-- Embeds `Car::accelerate` (car.cpp lines 147-157): disable the braking
friction generator, add the force `(dx, dy) * power`, and set the mode flags. -/
def Car.accelerate (c : Car) : Car :=
  { c with brakingFrictionEnabled := false,
           forceX := c.forceX + c.dx * c.power,
           forceY := c.forceY + c.dy * c.power,
           accelerating := true, braking := false, reverse := false }

/-- A steering call: one of `Car::turnLeft`, `Car::turnRight`,
`Car::noSteering`. -/
inductive SteerOp
  | left
  | right
  | center
deriving DecidableEq

/-- Apply one steering call to the car state. -/
def applySteer (c : Car) : SteerOp → Car
  | SteerOp.left => c.turnLeft
  | SteerOp.right => c.turnRight
  | SteerOp.center => c.noSteering

/-- A concrete non-stationary, awake physics state used to evaluate the
theorems on concrete inputs (spec defaults: restitution 0.5, dampings 0.999,
sleep limits 0.01). -/
def sampleState : MCP.PhysicsState where
  velocity := ⟨1, 0, 0⟩
  angularVelocity := 0
  acceleration := 0
  accumulatedForce := 0
  accumulatedTorque := 0
  linearImpulse := 0
  angularImpulse := 0
  mass := 1
  invMass := 1
  momentOfInertia := 1
  invMomentOfInertia := 1
  restitution := 1 / 2
  linearDamping := 999 / 1000
  angularDamping := 999 / 1000
  maxSpeed := 0
  xyFriction := 0
  sleeping := false
  sleepPrevented := false
  stationary := false
  integrating := false
  linearSleepLimit := 1 / 100
  angularSleepLimit := 1 / 100
  sleepCount := 0
  collisionTag := 0
  neverCollideWithTag := 0

/-- A concrete stationary state with nonzero accumulated force, torque and
impulses. -/
def sampleStationary : MCP.PhysicsState :=
  { sampleState with stationary := true, invMass := 0, invMomentOfInertia := 0,
                     accumulatedForce := ⟨3, -2, 0⟩, accumulatedTorque := 7,
                     linearImpulse := ⟨1, 4, 0⟩, angularImpulse := -5,
                     velocity := ⟨2, 1, 0⟩, angularVelocity := 3 }

/-- A concrete integration-parameter choice; the square-root parameter is only
evaluated at arguments the individual theorems fix. -/
def sampleParams : MCP.IntegrationParams where
  sqrtFn := fun q => q
  sleepFrames := 1

/-- A concrete car state in the constructed steering position (tire angle 0,
constructor values power 5000 and turning impulse 0.4). -/
def sampleCar : Car where
  tireAngle := 0
  speedInKmh := 0
  accelerating := false
  braking := false
  reverse := false
  turnLeftFlag := false
  turnRightFlag := false
  brakingFrictionEnabled := false
  power := 5000
  turningImpulse := 2 / 5
  dx := 1
  dy := 0
  forceX := 0
  forceY := 0
  rotationalImpulse := 0

/-- A concrete car state moving forward fast, not in reverse mode. -/
def sampleCarForward : Car :=
  { sampleCar with speedInKmh := 50, dx := 3 / 5, dy := 4 / 5 }

/-- The tire-angle effect of `Car::turnLeft`. -/
theorem turnLeft_tireAngle (c : Car) :
    (Car.turnLeft c).tireAngle =
      if c.tireAngle < 45 then c.tireAngle + 1 else c.tireAngle := by
  simp only [Car.turnLeft]
  split_ifs <;> rfl

/-- The tire-angle effect of `Car::turnRight`. -/
theorem turnRight_tireAngle (c : Car) :
    (Car.turnRight c).tireAngle =
      if -45 < c.tireAngle then c.tireAngle - 1 else c.tireAngle := by
  simp only [Car.turnRight]
  split_ifs <;> rfl

/-- The tire-angle effect of `Car::noSteering`. -/
theorem noSteering_tireAngle (c : Car) :
    (Car.noSteering c).tireAngle =
      if c.tireAngle < 0 then c.tireAngle + 1
      else if 0 < c.tireAngle then c.tireAngle - 1 else c.tireAngle := by
  simp only [Car.noSteering]
  split_ifs <;> rfl

/-- Any single steering call keeps the tire angle inside [-45, 45]. -/
theorem applySteer_tireAngle_bounds (c : Car) (op : SteerOp)
    (h1 : -45 ≤ c.tireAngle) (h2 : c.tireAngle ≤ 45) :
    -45 ≤ (applySteer c op).tireAngle ∧ (applySteer c op).tireAngle ≤ 45 := by
  cases op with
  | left =>
    simp only [applySteer, turnLeft_tireAngle]
    split_ifs <;> omega
  | right =>
    simp only [applySteer, turnRight_tireAngle]
    split_ifs <;> omega
  | center =>
    simp only [applySteer, noSteering_tireAngle]
    split_ifs <;> omega

/-- Any sequence of steering calls keeps the tire angle inside [-45, 45]. -/
theorem steer_fold_tireAngle_bounds (ops : List SteerOp) (c : Car)
    (h1 : -45 ≤ c.tireAngle) (h2 : c.tireAngle ≤ 45) :
    -45 ≤ (ops.foldl applySteer c).tireAngle
      ∧ (ops.foldl applySteer c).tireAngle ≤ 45 := by
  induction ops generalizing c with
  | nil => exact ⟨h1, h2⟩
  | cons op rest ih =>
    have h := applySteer_tireAngle_bounds c op h1 h2
    exact ih (applySteer c op) h.1 h.2

/-- C1: a stationary physics component never changes its linear or angular
velocity in `stepTime`, for any step size at least 0, whatever force, torque
and impulse amounts were accumulated before the call. -/
theorem c1_stationary_stepTime_preserves_velocities
    (p : MCP.IntegrationParams) (step : ℚ) (s : MCP.PhysicsState)
    (hst : s.stationary = true) (hstep : 0 ≤ step) :
    (MCP.stepTime p step s).velocity = s.velocity
      ∧ (MCP.stepTime p step s).angularVelocity = s.angularVelocity := by
  simp [MCP.stepTime, hst, MCP.clearAccumulators]

theorem c1_witness :
    (0 : ℚ) ≤ 1
      ∧ (MCP.stepTime sampleParams 1 sampleStationary).velocity = sampleStationary.velocity
      ∧ (MCP.stepTime sampleParams 1 sampleStationary).angularVelocity
          = sampleStationary.angularVelocity :=
  ⟨by norm_num,
    c1_stationary_stepTime_preserves_velocities sampleParams 1 sampleStationary rfl (by norm_num)⟩

/-- C7: immediately after any `stepTime` call, on every physics component
(stationary and sleeping ones included) and for every step size, all four
accumulators (force, torque, linear impulse, angular impulse) are zero. -/
theorem c7_stepTime_clears_accumulators
    (p : MCP.IntegrationParams) (step : ℚ) (s : MCP.PhysicsState) :
    (MCP.stepTime p step s).accumulatedForce = 0
      ∧ (MCP.stepTime p step s).accumulatedTorque = 0
      ∧ (MCP.stepTime p step s).linearImpulse = 0
      ∧ (MCP.stepTime p step s).angularImpulse = 0 := by
  unfold MCP.stepTime MCP.sleepEval MCP.integratedState
  split_ifs <;>
    simp [MCP.clearAccumulators, MCP.integrateAngular, MCP.integrateLinear]

/-- C8: a `setMass` call with the stationary flag unset and a non-positive
mass, and a `setMomentOfInertia` call with a non-positive moment of inertia,
are rejected at the setter: the state is unchanged, so no inverse is ever
produced by dividing by a non-positive number and no invalid configuration
reaches a later `stepTime` call. -/
theorem c8_nonpositive_setters_rejected (s : MCP.PhysicsState) (m i : ℚ)
    (hm : m ≤ 0) (hi : i ≤ 0) :
    MCP.setMass m false s = s ∧ MCP.setMomentOfInertia i s = s := by
  simp [MCP.setMass, MCP.setMomentOfInertia, hm, hi]

theorem c8_witness :
    ((0 : ℚ) ≤ 0 ∧ (-1 : ℚ) ≤ 0)
      ∧ MCP.setMass 0 false sampleState = sampleState
      ∧ MCP.setMomentOfInertia (-1) sampleState = sampleState :=
  ⟨⟨le_refl 0, by norm_num⟩,
    c8_nonpositive_setters_rejected sampleState 0 (-1) (le_refl 0) (by norm_num)⟩

/-- C9: starting from the constructed state (tire angle 0), every sequence of
`Car::turnLeft`, `Car::turnRight` and `Car::noSteering` calls keeps the tire
angle within [-45, 45]; `turnLeft` increments the angle exactly when it is
below 45, `turnRight` decrements it exactly when it is above -45, and
`noSteering` moves it one unit toward 0 unless it is already 0. -/
theorem c9_tire_angle_invariant (ops : List SteerOp) (c : Car)
    (h0 : c.tireAngle = 0) :
    (-45 ≤ (ops.foldl applySteer c).tireAngle
        ∧ (ops.foldl applySteer c).tireAngle ≤ 45)
      ∧ (∀ d : Car,
          (d.tireAngle < 45 → (Car.turnLeft d).tireAngle = d.tireAngle + 1)
            ∧ (45 ≤ d.tireAngle → (Car.turnLeft d).tireAngle = d.tireAngle))
      ∧ (∀ d : Car,
          (-45 < d.tireAngle → (Car.turnRight d).tireAngle = d.tireAngle - 1)
            ∧ (d.tireAngle ≤ -45 → (Car.turnRight d).tireAngle = d.tireAngle))
      ∧ (∀ d : Car,
          (d.tireAngle < 0 → (Car.noSteering d).tireAngle = d.tireAngle + 1)
            ∧ (0 < d.tireAngle → (Car.noSteering d).tireAngle = d.tireAngle - 1)
            ∧ (d.tireAngle = 0 → (Car.noSteering d).tireAngle = 0)) := by
  refine ⟨steer_fold_tireAngle_bounds ops c (by omega) (by omega), ?_, ?_, ?_⟩
  · intro d
    rw [turnLeft_tireAngle]
    constructor <;> intro h <;> split_ifs <;> omega
  · intro d
    rw [turnRight_tireAngle]
    constructor <;> intro h <;> split_ifs <;> omega
  · intro d
    rw [noSteering_tireAngle]
    refine ⟨?_, ?_, ?_⟩ <;> intro h <;> split_ifs <;> omega

theorem c9_witness :
    (-45 ≤ (([SteerOp.left, SteerOp.left, SteerOp.center,
              SteerOp.right]).foldl applySteer sampleCar).tireAngle
        ∧ (([SteerOp.left, SteerOp.left, SteerOp.center,
              SteerOp.right]).foldl applySteer sampleCar).tireAngle ≤ 45)
      ∧ (∀ d : Car,
          (d.tireAngle < 45 → (Car.turnLeft d).tireAngle = d.tireAngle + 1)
            ∧ (45 ≤ d.tireAngle → (Car.turnLeft d).tireAngle = d.tireAngle))
      ∧ (∀ d : Car,
          (-45 < d.tireAngle → (Car.turnRight d).tireAngle = d.tireAngle - 1)
            ∧ (d.tireAngle ≤ -45 → (Car.turnRight d).tireAngle = d.tireAngle))
      ∧ (∀ d : Car,
          (d.tireAngle < 0 → (Car.noSteering d).tireAngle = d.tireAngle + 1)
            ∧ (0 < d.tireAngle → (Car.noSteering d).tireAngle = d.tireAngle - 1)
            ∧ (d.tireAngle = 0 → (Car.noSteering d).tireAngle = 0)) :=
  c9_tire_angle_invariant
    [SteerOp.left, SteerOp.left, SteerOp.center, SteerOp.right] sampleCar rfl

/-- C10: `Car::brake` clears the accelerating flag; when the current speed is
below 1 km/h it enters reverse mode; in reverse mode it adds the force
`-(dx, dy) * power / 2` (half the forward power, opposite the heading) and
leaves the braking flag and the braking friction generator untouched;
otherwise it sets the braking flag and enables the braking friction
generator. -/
theorem c10_brake_behaviour (c : Car) :
    (Car.brake c).accelerating = false
      ∧ (c.speedInKmh < 1 → (Car.brake c).reverse = true)
      ∧ (c.reverse = true ∨ c.speedInKmh < 1 →
          (Car.brake c).forceX = c.forceX + -(c.dx * c.power) / 2
            ∧ (Car.brake c).forceY = c.forceY + -(c.dy * c.power) / 2
            ∧ (Car.brake c).braking = c.braking
            ∧ (Car.brake c).brakingFrictionEnabled = c.brakingFrictionEnabled)
      ∧ (c.reverse = false → 1 ≤ c.speedInKmh →
          (Car.brake c).braking = true
            ∧ (Car.brake c).brakingFrictionEnabled = true
            ∧ (Car.brake c).forceX = c.forceX
            ∧ (Car.brake c).forceY = c.forceY
            ∧ (Car.brake c).reverse = false) := by
  have hacc : (Car.brake c).accelerating = false := by
    simp only [Car.brake]
    split_ifs <;> rfl
  refine ⟨hacc, ?_, ?_, ?_⟩
  · intro hs
    simp [Car.brake, hs]
  · intro h
    by_cases hs : c.speedInKmh < 1
    · simp [Car.brake, hs]
    · have hr : c.reverse = true := h.resolve_right hs
      simp [Car.brake, hs, hr]
  · intro hr hs
    have hs1 : ¬ c.speedInKmh < 1 := by omega
    simp [Car.brake, hs1, hr]

theorem c10_witness :
    ((Car.brake sampleCar).accelerating = false
      ∧ (Car.brake sampleCar).reverse = true
      ∧ (Car.brake sampleCar).forceX = sampleCar.forceX + -(sampleCar.dx * sampleCar.power) / 2
      ∧ (Car.brake sampleCar).forceY = sampleCar.forceY + -(sampleCar.dy * sampleCar.power) / 2
      ∧ (Car.brake sampleCar).braking = sampleCar.braking
      ∧ (Car.brake sampleCar).brakingFrictionEnabled = sampleCar.brakingFrictionEnabled)
      ∧ ((Car.brake sampleCarForward).braking = true
      ∧ (Car.brake sampleCarForward).brakingFrictionEnabled = true
      ∧ (Car.brake sampleCarForward).forceX = sampleCarForward.forceX
      ∧ (Car.brake sampleCarForward).forceY = sampleCarForward.forceY) := by
  have h1 := c10_brake_behaviour sampleCar
  have h2 := c10_brake_behaviour sampleCarForward
  have ha := h1.2.1 (by decide)
  have hb := h1.2.2.1 (Or.inr (by decide))
  have hc := h2.2.2.2 rfl (by decide)
  exact ⟨⟨h1.1, ha, hb.1, hb.2.1, hb.2.2.1, hb.2.2.2⟩, hc.1, hc.2.1, hc.2.2.1, hc.2.2.2.1⟩

/-- A concrete sleeping state with unit inverse mass and no damping loss. -/
def sampleSleeping : MCP.PhysicsState :=
  { sampleState with sleeping := true, velocity := 0, angularVelocity := 0,
                     linearDamping := 1 }

/-- Concrete integration parameters whose square root is exact at 4. -/
def cexParams : MCP.IntegrationParams where
  sqrtFn := fun q => if q = 4 then 2 else 0
  sleepFrames := 1

/-- A concrete state whose damped speed 2 exceeds its maxSpeed 1. -/
def cexClampState : MCP.PhysicsState :=
  { sampleState with velocity := ⟨2, 0, 0⟩, linearDamping := 1, maxSpeed := 1 }

/-- A concrete slow state one qualifying step away from falling asleep. -/
def cexSleepOnsetState : MCP.PhysicsState :=
  { sampleState with velocity := ⟨1 / 1000, 0, 0⟩, linearDamping := 1,
                     sleepCount := 1 }

/-- A concrete awake state with nonzero force and impulse accumulators. -/
def sampleC2 : MCP.PhysicsState :=
  { sampleState with accumulatedForce := ⟨2, 0, 0⟩, invMass := 1 / 2, mass := 2,
                     linearImpulse := ⟨1, 0, 0⟩, linearDamping := 1 / 2 }

/-- Concrete integration parameters whose square root is exact at 25. -/
def c6Params : MCP.IntegrationParams where
  sqrtFn := fun q => if q = 25 then 5 else 0
  sleepFrames := 1

/-- A concrete state with speed 5 exceeding its maxSpeed 1. -/
def sampleC6 : MCP.PhysicsState :=
  { sampleState with velocity := ⟨3, 4, 0⟩, linearDamping := 1, maxSpeed := 1 }

/-- The max-speed clamp leaves the velocity unchanged when maxSpeed is
non-positive or the speed is within maxSpeed. -/
theorem clampSpeed_eq_self (f : ℚ → ℚ) (m : ℚ) (v : Vec3)
    (h : m ≤ 0 ∨ v.normSq ≤ m * m) : MCP.clampSpeed f m v = v := by
  unfold MCP.clampSpeed
  rw [if_neg]
  rintro ⟨h1, h2⟩
  rcases h with h | h
  · exact absurd h1 (not_lt.mpr h)
  · exact absurd h2 (not_lt.mpr h)

/-- When the speed exceeds a positive maxSpeed and the square-root parameter
is exact at the squared norm, the clamp rescales to magnitude maxSpeed along
the same direction. -/
theorem clampSpeed_overspeed (f : ℚ → ℚ) (m : ℚ) (v : Vec3)
    (hm : 0 < m) (hv : m * m < v.normSq)
    (hpos : 0 < f v.normSq) (hsq : f v.normSq * f v.normSq = v.normSq) :
    (MCP.clampSpeed f m v).normSq = m * m
      ∧ ∃ c : ℚ, 0 < c ∧ MCP.clampSpeed f m v = c • v := by
  have hcond : 0 < m ∧ m * m < v.normSq := ⟨hm, hv⟩
  have hnsq : v.normSq ≠ 0 := by nlinarith
  constructor
  · unfold MCP.clampSpeed
    rw [if_pos hcond, Vec3.normSq_smul, div_mul_div_comm, hsq,
      div_mul_cancel₀ _ hnsq]
  · refine ⟨m / f v.normSq, div_pos hm hpos, ?_⟩
    unfold MCP.clampSpeed
    rw [if_pos hcond]

/-- The linear velocity produced by the integration body of `stepTime`. -/
theorem integratedState_velocity (p : MCP.IntegrationParams) (step : ℚ)
    (s : MCP.PhysicsState) :
    (MCP.integratedState p step s).velocity
      = MCP.clampSpeed p.sqrtFn s.maxSpeed (MCP.preClampVelocity step s) := by
  simp [MCP.integratedState, MCP.clearAccumulators, MCP.integrateAngular,
    MCP.integrateLinear]

/-- If a non-stationary, awake component is still awake after `stepTime`, its
new velocity is the clamped damped integrated velocity. -/
theorem stepTime_velocity_awake (p : MCP.IntegrationParams) (step : ℚ)
    (s : MCP.PhysicsState)
    (hst : s.stationary = false) (hsl : s.sleeping = false)
    (hawake : (MCP.stepTime p step s).sleeping = false) :
    (MCP.stepTime p step s).velocity
      = MCP.clampSpeed p.sqrtFn s.maxSpeed (MCP.preClampVelocity step s) := by
  have hvel := integratedState_velocity p step s
  unfold MCP.stepTime at hawake ⊢
  rw [if_neg (by simp [hst]), if_neg (by simp [hsl])] at hawake
  rw [if_neg (by simp [hst]), if_neg (by simp [hsl])]
  unfold MCP.sleepEval at hawake ⊢
  split_ifs at hawake ⊢ with h1 h2
  · exact hvel
  · exact hvel

/-- After an integrating `stepTime` call the velocity is either zeroed by the
sleep evaluation or equal to the clamped damped integrated velocity. -/
theorem stepTime_velocity_cases (p : MCP.IntegrationParams) (step : ℚ)
    (s : MCP.PhysicsState)
    (hst : s.stationary = false) (hsl : s.sleeping = false) :
    (MCP.stepTime p step s).velocity = 0
      ∨ (MCP.stepTime p step s).velocity
          = MCP.clampSpeed p.sqrtFn s.maxSpeed (MCP.preClampVelocity step s) := by
  have hvel := integratedState_velocity p step s
  unfold MCP.stepTime
  rw [if_neg (by simp [hst]), if_neg (by simp [hsl])]
  unfold MCP.sleepEval
  split_ifs with h1 h2
  · left
    simp
  · right
    simpa using hvel
  · right
    simpa using hvel

/-- `stepTime` never changes the configuration fields: mass, inverse mass,
stationarity, sleep prevention, sleep limits and maxSpeed. -/
theorem stepTime_preserved_fields (p : MCP.IntegrationParams) (t : ℚ)
    (s : MCP.PhysicsState) :
    (MCP.stepTime p t s).mass = s.mass
      ∧ (MCP.stepTime p t s).invMass = s.invMass
      ∧ (MCP.stepTime p t s).stationary = s.stationary
      ∧ (MCP.stepTime p t s).sleepPrevented = s.sleepPrevented
      ∧ (MCP.stepTime p t s).linearSleepLimit = s.linearSleepLimit
      ∧ (MCP.stepTime p t s).angularSleepLimit = s.angularSleepLimit
      ∧ (MCP.stepTime p t s).maxSpeed = s.maxSpeed := by
  unfold MCP.stepTime MCP.sleepEval MCP.integratedState MCP.clearAccumulators
    MCP.integrateAngular MCP.integrateLinear
  split_ifs <;> simp

/-- The mass invariant only depends on the mass, inverse-mass and stationary
fields. -/
theorem physInv_of_same {u v : MCP.PhysicsState}
    (hm : v.mass = u.mass) (hi : v.invMass = u.invMass)
    (hst : v.stationary = u.stationary) (h : MCP.PhysInv u) : MCP.PhysInv v := by
  unfold MCP.PhysInv at h ⊢
  rw [hm, hi, hst]
  exact h

/-- Every public API call preserves the mass invariant. -/
theorem pstep_preserves_physInv {u v : MCP.PhysicsState}
    (h : MCP.PhysInv u) (hs : MCP.PStep u v) : MCP.PhysInv v := by
  cases hs with
  | ofSetMass m st s =>
    cases st with
    | true =>
      constructor
      · simp [MCP.setMass]
      · intro hc
        simp [MCP.setMass] at hc
    | false =>
      by_cases hm : m ≤ 0
      · simpa [MCP.setMass, hm] using h
      · have hm0 : m ≠ 0 := fun he => hm (le_of_eq he)
        have hmpos : 0 < m := not_le.mp hm
        constructor
        · simp [MCP.setMass, hm, one_div, inv_eq_zero, hm0]
        · intro _
          exact ⟨by simp [MCP.setMass, hm], by simpa [MCP.setMass, hm] using hmpos⟩
  | ofSetMomentOfInertia i s =>
    refine physInv_of_same ?_ ?_ ?_ h <;>
      (unfold MCP.setMomentOfInertia; split_ifs <;> simp)
  | ofAddForce f s =>
    refine physInv_of_same ?_ ?_ ?_ h <;> simp [MCP.addForce]
  | ofAddForceAt f arm s =>
    refine physInv_of_same ?_ ?_ ?_ h <;> simp [MCP.addForceAt]
  | ofAddTorque t s =>
    refine physInv_of_same ?_ ?_ ?_ h <;> simp [MCP.addTorque]
  | ofAddImpulse i c s =>
    refine physInv_of_same ?_ ?_ ?_ h <;>
      (unfold MCP.addImpulse; split_ifs <;> simp)
  | ofAddAngularImpulse i c s =>
    refine physInv_of_same ?_ ?_ ?_ h <;>
      (unfold MCP.addAngularImpulse; split_ifs <;> simp)
  | ofClearForces s =>
    refine physInv_of_same ?_ ?_ ?_ h <;> simp [MCP.clearForces]
  | ofSetVelocity v0 s =>
    refine physInv_of_same ?_ ?_ ?_ h <;> simp [MCP.setVelocity]
  | ofSetAngularVelocity w s =>
    refine physInv_of_same ?_ ?_ ?_ h <;> simp [MCP.setAngularVelocity]
  | ofSetAcceleration a s =>
    refine physInv_of_same ?_ ?_ ?_ h <;> simp [MCP.setAcceleration]
  | ofSetMaxSpeed m s =>
    refine physInv_of_same ?_ ?_ ?_ h <;> simp [MCP.setMaxSpeed]
  | ofSetRestitution r s =>
    refine physInv_of_same ?_ ?_ ?_ h <;> simp [MCP.setRestitution]
  | ofSetXYFriction f s =>
    refine physInv_of_same ?_ ?_ ?_ h <;> simp [MCP.setXYFriction]
  | ofSetSleepLimits l a s =>
    refine physInv_of_same ?_ ?_ ?_ h <;> simp [MCP.setSleepLimits]
  | ofSetLinearDamping d s =>
    refine physInv_of_same ?_ ?_ ?_ h <;> simp [MCP.setLinearDamping]
  | ofSetAngularDamping d s =>
    refine physInv_of_same ?_ ?_ ?_ h <;> simp [MCP.setAngularDamping]
  | ofPreventSleeping b s =>
    refine physInv_of_same ?_ ?_ ?_ h <;>
      (unfold MCP.preventSleeping; split_ifs <;> simp)
  | ofToggleSleep b s =>
    refine physInv_of_same ?_ ?_ ?_ h <;>
      (unfold MCP.toggleSleep; split_ifs <;> simp)
  | ofReset s =>
    refine physInv_of_same ?_ ?_ ?_ h <;> simp [MCP.reset]
  | ofStepTime p t s =>
    obtain ⟨h1, h2, h3, -⟩ := stepTime_preserved_fields p t u
    exact physInv_of_same h1 h2 h3 h

/-- The mass invariant holds in every state reachable through the public
API from a state satisfying it. -/
theorem physReach_preserves_physInv {u v : MCP.PhysicsState}
    (h : MCP.PhysInv u) (hr : MCP.PhysReach u v) : MCP.PhysInv v := by
  unfold MCP.PhysReach at hr
  induction hr with
  | refl => exact h
  | tail _ hbc ih => exact pstep_preserves_physInv ih hbc

/-- C5 counterexample: the round-trip clause fails for a non-positive mass:
`setMass(-1, false)` is rejected at the setter boundary (spec section 7(a)),
so afterwards `mass()` is still the old mass 1, not -1. -/
theorem c5_counterexample : (MCP.setMass (-1) false sampleState).mass ≠ -1 := by
  decide

/-- C5 (amended): for every positive mass m, after `setMass(m, false)` the
getters give `mass() = m`, `invMass() = 1/m` and the object is not
stationary; after `setMass(m, true)` they give `invMass() = 0` and
`isStationary() = true`; and in every state reachable through the public API
from a state satisfying it, `invMass = 0` holds iff the object is stationary
and otherwise `invMass = 1/mass` with `mass > 0`. -/
theorem c5_mass_setter_and_invariant (m : ℚ) (s : MCP.PhysicsState)
    (hm : 0 < m) :
    ((MCP.setMass m false s).mass = m
        ∧ (MCP.setMass m false s).invMass = 1 / m
        ∧ (MCP.setMass m false s).stationary = false)
      ∧ ((MCP.setMass m true s).invMass = 0
        ∧ (MCP.setMass m true s).stationary = true)
      ∧ (∀ u v : MCP.PhysicsState, MCP.PhysInv u → MCP.PhysReach u v →
            MCP.PhysInv v) := by
  have hm1 : ¬ m ≤ 0 := not_le.mpr hm
  refine ⟨⟨?_, ?_, ?_⟩, ⟨?_, ?_⟩,
    fun u v hu hr => physReach_preserves_physInv hu hr⟩ <;>
    simp [MCP.setMass, hm1]

theorem c5_witness :
    (0 : ℚ) < 5
      ∧ (((MCP.setMass 5 false sampleState).mass = 5
          ∧ (MCP.setMass 5 false sampleState).invMass = 1 / 5
          ∧ (MCP.setMass 5 false sampleState).stationary = false)
        ∧ ((MCP.setMass 5 true sampleState).invMass = 0
          ∧ (MCP.setMass 5 true sampleState).stationary = true)
        ∧ (∀ u v : MCP.PhysicsState, MCP.PhysInv u → MCP.PhysReach u v →
              MCP.PhysInv v)) :=
  ⟨by norm_num, c5_mass_setter_and_invariant 5 sampleState (by norm_num)⟩

/-- C2 counterexample: the claimed formula for the post-step velocity fails
as stated.  First input: a positive maxSpeed of 1 with a damped speed of 2
makes the clamp rescale the velocity away from the formula.  Second input: a
slow component crossing the sleep threshold has its velocity zeroed by the
sleep evaluation instead of keeping the formula value. -/
theorem c2_counterexample :
    (MCP.stepTime cexParams 1 cexClampState).velocity
        ≠ cexClampState.linearDamping • (cexClampState.velocity
            + (1 : ℚ) • (cexClampState.invMass • cexClampState.accumulatedForce
                + cexClampState.acceleration)
            + cexClampState.invMass • cexClampState.linearImpulse)
      ∧ (MCP.stepTime cexParams 1 cexSleepOnsetState).velocity
          ≠ cexSleepOnsetState.linearDamping • (cexSleepOnsetState.velocity
              + (1 : ℚ) • (cexSleepOnsetState.invMass • cexSleepOnsetState.accumulatedForce
                  + cexSleepOnsetState.acceleration)
              + cexSleepOnsetState.invMass • cexSleepOnsetState.linearImpulse) := by
  constructor
  · norm_num [MCP.stepTime, MCP.integratedState, MCP.clearAccumulators,
      MCP.integrateAngular, MCP.integrateLinear, MCP.sleepEval, MCP.belowLimits,
      MCP.clampSpeed, MCP.preClampVelocity, MCP.preDampingVelocity,
      MCP.preImpulseVelocity, MCP.addImpulse, Vec3.normSq, Vec3.ext_iff,
      sampleState, sampleParams, cexParams, cexClampState]
  · norm_num [MCP.stepTime, MCP.integratedState, MCP.clearAccumulators,
      MCP.integrateAngular, MCP.integrateLinear, MCP.sleepEval, MCP.belowLimits,
      MCP.clampSpeed, MCP.preClampVelocity, MCP.preDampingVelocity,
      MCP.preImpulseVelocity, MCP.addImpulse, Vec3.normSq, Vec3.ext_iff,
      sampleState, sampleParams, cexParams, cexSleepOnsetState]

/-- C2 (amended): for every non-stationary, non-sleeping component, provided
the max-speed clamp does not rescale the damped velocity (maxSpeed ≤ 0 or the
damped speed is within maxSpeed) and the component does not fall asleep
during the call, one `stepTime(step)` call updates the linear velocity
exactly by the claimed formula: the accumulated force times invMass plus the
constant acceleration scaled by step, then the impulse times invMass not
scaled by step, then the linear damping factor. -/
theorem c2_linear_integration_formula (p : MCP.IntegrationParams) (step : ℚ)
    (s : MCP.PhysicsState)
    (hst : s.stationary = false) (hsl : s.sleeping = false)
    (hclamp : s.maxSpeed ≤ 0
      ∨ (MCP.preClampVelocity step s).normSq ≤ s.maxSpeed * s.maxSpeed)
    (hawake : (MCP.stepTime p step s).sleeping = false) :
    (MCP.stepTime p step s).velocity
      = s.linearDamping • (s.velocity
          + step • (s.invMass • s.accumulatedForce + s.acceleration)
          + s.invMass • s.linearImpulse) := by
  rw [stepTime_velocity_awake p step s hst hsl hawake,
    clampSpeed_eq_self p.sqrtFn s.maxSpeed _ hclamp]
  rfl

theorem c2_witness :
    (sampleC2.stationary = false ∧ sampleC2.sleeping = false
        ∧ (sampleC2.maxSpeed ≤ 0
          ∨ (MCP.preClampVelocity 1 sampleC2).normSq ≤ sampleC2.maxSpeed * sampleC2.maxSpeed)
        ∧ (MCP.stepTime sampleParams 1 sampleC2).sleeping = false)
      ∧ (MCP.stepTime sampleParams 1 sampleC2).velocity
          = sampleC2.linearDamping • (sampleC2.velocity
              + (1 : ℚ) • (sampleC2.invMass • sampleC2.accumulatedForce + sampleC2.acceleration)
              + sampleC2.invMass • sampleC2.linearImpulse) :=
  ⟨⟨rfl, rfl, Or.inl (by norm_num [sampleC2, sampleState]),
      by norm_num [MCP.stepTime, MCP.integratedState, MCP.clearAccumulators,
      MCP.integrateAngular, MCP.integrateLinear, MCP.sleepEval, MCP.belowLimits,
      MCP.clampSpeed, MCP.preClampVelocity, MCP.preDampingVelocity,
      MCP.preImpulseVelocity, MCP.addImpulse, Vec3.normSq, Vec3.ext_iff,
      sampleState, sampleParams, sampleC2]⟩,
    c2_linear_integration_formula sampleParams 1 sampleC2 rfl rfl
      (Or.inl (by norm_num [sampleC2, sampleState]))
      (by norm_num [MCP.stepTime, MCP.integratedState, MCP.clearAccumulators,
      MCP.integrateAngular, MCP.integrateLinear, MCP.sleepEval, MCP.belowLimits,
      MCP.clampSpeed, MCP.preClampVelocity, MCP.preDampingVelocity,
      MCP.preImpulseVelocity, MCP.addImpulse, Vec3.normSq, Vec3.ext_iff,
      sampleState, sampleParams, sampleC2])⟩

/-- C3 counterexample: for a sleeping component, a sub-threshold
non-collision impulse is not applied (the spec's sleeping policy drops it and
`stepTime` skips integration while asleep), so the velocity delta of
`addImpulse(I)` followed by `stepTime(1)` is 0, not `I * invMass`. -/
theorem c3_counterexample :
    (MCP.stepTime sampleParams 1
          (MCP.addImpulse ⟨1 / 1000, 0, 0⟩ false sampleSleeping)).velocity
        - (MCP.stepTime sampleParams 1 sampleSleeping).velocity
      ≠ sampleSleeping.invMass • (⟨1 / 1000, 0, 0⟩ : Vec3) := by
  norm_num [MCP.stepTime, MCP.integratedState, MCP.clearAccumulators,
      MCP.integrateAngular, MCP.integrateLinear, MCP.sleepEval, MCP.belowLimits,
      MCP.clampSpeed, MCP.preClampVelocity, MCP.preDampingVelocity,
      MCP.preImpulseVelocity, MCP.addImpulse, Vec3.normSq, Vec3.ext_iff,
      sampleState, sampleParams, sampleSleeping]

/-- C3 (amended): for every non-stationary, awake (non-sleeping) component
and every impulse I, the pre-damping velocity change contributed by
`addImpulse(I)` before `stepTime(step)` integration is exactly `I * invMass`
for every step > 0, hence identical for any two step sizes. -/
theorem c3_impulse_step_independent (i : Vec3) (step1 step2 : ℚ)
    (s : MCP.PhysicsState)
    (hst : s.stationary = false) (hsl : s.sleeping = false)
    (h1 : 0 < step1) (h2 : 0 < step2) :
    MCP.preDampingVelocity step1 (MCP.addImpulse i false s)
          - MCP.preDampingVelocity step1 s
        = s.invMass • i
      ∧ MCP.preDampingVelocity step1 (MCP.addImpulse i false s)
            - MCP.preDampingVelocity step1 s
          = MCP.preDampingVelocity step2 (MCP.addImpulse i false s)
            - MCP.preDampingVelocity step2 s := by
  have key : ∀ t : ℚ,
      MCP.preDampingVelocity t (MCP.addImpulse i false s)
          - MCP.preDampingVelocity t s = s.invMass • i := by
    intro t
    simp only [MCP.addImpulse, hsl, Bool.false_eq_true, if_false,
      MCP.preDampingVelocity, MCP.preImpulseVelocity]
    ext <;> simp <;> ring
  exact ⟨key step1, (key step1).trans (key step2).symm⟩

theorem c3_witness :
    (sampleState.stationary = false ∧ sampleState.sleeping = false
        ∧ (0 : ℚ) < 2 ∧ (0 : ℚ) < 5)
      ∧ (MCP.preDampingVelocity 2 (MCP.addImpulse ⟨3, 0, 0⟩ false sampleState)
            - MCP.preDampingVelocity 2 sampleState
          = sampleState.invMass • (⟨3, 0, 0⟩ : Vec3)
        ∧ MCP.preDampingVelocity 2 (MCP.addImpulse ⟨3, 0, 0⟩ false sampleState)
              - MCP.preDampingVelocity 2 sampleState
            = MCP.preDampingVelocity 5 (MCP.addImpulse ⟨3, 0, 0⟩ false sampleState)
              - MCP.preDampingVelocity 5 sampleState) :=
  ⟨⟨rfl, rfl, by norm_num, by norm_num⟩,
    c3_impulse_step_independent ⟨3, 0, 0⟩ 2 5 sampleState rfl rfl
      (by norm_num) (by norm_num)⟩

/-- C6: for a non-stationary, awake component, the linear integration stage
of one `stepTime` call clamps speed as specified: with maxSpeed ≤ 0 the
damped velocity is left unclamped; a zero-length damped velocity
short-circuits the clamp away from the division; when maxSpeed > 0 and the
damped speed exceeds maxSpeed (and the model square root is exact there) the
velocity is rescaled to magnitude maxSpeed as a positive multiple of itself
(direction preserved); and the post-`stepTime` speed never exceeds a positive
maxSpeed. -/
theorem c6_max_speed_clamp (p : MCP.IntegrationParams) (step : ℚ)
    (s : MCP.PhysicsState)
    (hst : s.stationary = false) (hsl : s.sleeping = false)
    (hex : s.maxSpeed * s.maxSpeed < (MCP.preClampVelocity step s).normSq →
        0 < p.sqrtFn (MCP.preClampVelocity step s).normSq
          ∧ p.sqrtFn (MCP.preClampVelocity step s).normSq
              * p.sqrtFn (MCP.preClampVelocity step s).normSq
            = (MCP.preClampVelocity step s).normSq) :
    (s.maxSpeed ≤ 0 →
        (MCP.integrateLinear p step s).velocity = MCP.preClampVelocity step s)
      ∧ ((MCP.preClampVelocity step s).normSq = 0 →
          (MCP.integrateLinear p step s).velocity = MCP.preClampVelocity step s)
      ∧ (0 < s.maxSpeed →
          s.maxSpeed * s.maxSpeed < (MCP.preClampVelocity step s).normSq →
          (MCP.integrateLinear p step s).velocity.normSq = s.maxSpeed * s.maxSpeed
            ∧ ∃ c : ℚ, 0 < c ∧ (MCP.integrateLinear p step s).velocity
                = c • MCP.preClampVelocity step s)
      ∧ (0 < s.maxSpeed →
          ((MCP.stepTime p step s).velocity).normSq ≤ s.maxSpeed * s.maxSpeed) := by
  have hil : (MCP.integrateLinear p step s).velocity
      = MCP.clampSpeed p.sqrtFn s.maxSpeed (MCP.preClampVelocity step s) := by
    simp [MCP.integrateLinear]
  refine ⟨?_, ?_, ?_, ?_⟩
  · intro hms
    rw [hil, clampSpeed_eq_self p.sqrtFn s.maxSpeed _ (Or.inl hms)]
  · intro h0
    rw [hil, clampSpeed_eq_self p.sqrtFn s.maxSpeed _
      (Or.inr (by rw [h0]; exact mul_self_nonneg _))]
  · intro hms hover
    obtain ⟨hp, hq⟩ := hex hover
    rw [hil]
    exact clampSpeed_overspeed p.sqrtFn s.maxSpeed _ hms hover hp hq
  · intro hms
    rcases stepTime_velocity_cases p step s hst hsl with h | h
    · rw [h]
      simpa using mul_self_nonneg s.maxSpeed
    · rw [h]
      by_cases hover : s.maxSpeed * s.maxSpeed < (MCP.preClampVelocity step s).normSq
      · obtain ⟨hp, hq⟩ := hex hover
        exact le_of_eq (clampSpeed_overspeed p.sqrtFn s.maxSpeed _ hms hover hp hq).1
      · rw [clampSpeed_eq_self p.sqrtFn s.maxSpeed _ (Or.inr (not_lt.mp hover))]
        exact not_lt.mp hover

theorem c6_witness :
    (sampleC6.maxSpeed * sampleC6.maxSpeed < (MCP.preClampVelocity 1 sampleC6).normSq →
        0 < c6Params.sqrtFn (MCP.preClampVelocity 1 sampleC6).normSq
          ∧ c6Params.sqrtFn (MCP.preClampVelocity 1 sampleC6).normSq
              * c6Params.sqrtFn (MCP.preClampVelocity 1 sampleC6).normSq
            = (MCP.preClampVelocity 1 sampleC6).normSq)
      ∧ ((sampleC6.maxSpeed ≤ 0 →
            (MCP.integrateLinear c6Params 1 sampleC6).velocity
              = MCP.preClampVelocity 1 sampleC6)
        ∧ ((MCP.preClampVelocity 1 sampleC6).normSq = 0 →
            (MCP.integrateLinear c6Params 1 sampleC6).velocity
              = MCP.preClampVelocity 1 sampleC6)
        ∧ (0 < sampleC6.maxSpeed →
            sampleC6.maxSpeed * sampleC6.maxSpeed
                < (MCP.preClampVelocity 1 sampleC6).normSq →
            (MCP.integrateLinear c6Params 1 sampleC6).velocity.normSq
                = sampleC6.maxSpeed * sampleC6.maxSpeed
              ∧ ∃ c : ℚ, 0 < c ∧ (MCP.integrateLinear c6Params 1 sampleC6).velocity
                  = c • MCP.preClampVelocity 1 sampleC6)
        ∧ (0 < sampleC6.maxSpeed →
            ((MCP.stepTime c6Params 1 sampleC6).velocity).normSq
              ≤ sampleC6.maxSpeed * sampleC6.maxSpeed)) :=
  ⟨by norm_num [MCP.preClampVelocity, MCP.preDampingVelocity, MCP.preImpulseVelocity,
      Vec3.normSq, sampleC6, sampleState, c6Params],
    c6_max_speed_clamp c6Params 1 sampleC6 rfl rfl
      (by norm_num [MCP.preClampVelocity, MCP.preDampingVelocity, MCP.preImpulseVelocity,
        Vec3.normSq, sampleC6, sampleState, c6Params])⟩

/-- The integration body of `stepTime` does not change the sleep bookkeeping
fields or the sleep limits. -/
theorem integratedState_preserved (p : MCP.IntegrationParams) (step : ℚ)
    (s : MCP.PhysicsState) :
    (MCP.integratedState p step s).sleeping = s.sleeping
      ∧ (MCP.integratedState p step s).sleepPrevented = s.sleepPrevented
      ∧ (MCP.integratedState p step s).sleepCount = s.sleepCount
      ∧ (MCP.integratedState p step s).stationary = s.stationary
      ∧ (MCP.integratedState p step s).linearSleepLimit = s.linearSleepLimit
      ∧ (MCP.integratedState p step s).angularSleepLimit = s.angularSleepLimit := by
  simp [MCP.integratedState, MCP.clearAccumulators, MCP.integrateAngular,
    MCP.integrateLinear]

/-- A sleeping, non-prevented, non-stationary component only has its
accumulators cleared by `stepTime`. -/
theorem stepTime_sleeping (p : MCP.IntegrationParams) (step : ℚ)
    (r : MCP.PhysicsState) (hst : r.stationary = false)
    (hsl : r.sleeping = true) (hprev : r.sleepPrevented = false) :
    MCP.stepTime p step r = MCP.clearAccumulators r := by
  unfold MCP.stepTime
  rw [if_neg (by simp [hst]), if_pos ⟨hsl, hprev⟩]

/-- One awake integrating step whose result stays below both sleep limits
either sends the component to sleep with zeroed velocities (when the counter
crosses the frame threshold) or increments the consecutive-frame counter. -/
theorem stepTime_sleep_progress (p : MCP.IntegrationParams) (step : ℚ)
    (r : MCP.PhysicsState)
    (hst : r.stationary = false) (hprev : r.sleepPrevented = false)
    (hsl : r.sleeping = false)
    (hbel : MCP.belowLimits (MCP.stepTime p step r)) :
    ((MCP.stepTime p step r).sleeping = true
        ∧ (MCP.stepTime p step r).velocity = 0
        ∧ (MCP.stepTime p step r).angularVelocity = 0
        ∧ p.sleepFrames < r.sleepCount + 1)
      ∨ ((MCP.stepTime p step r).sleeping = false
        ∧ (MCP.stepTime p step r).sleepCount = r.sleepCount + 1
        ∧ r.sleepCount + 1 ≤ p.sleepFrames) := by
  obtain ⟨hA1, hA2, hA3, hA4, hA5, hA6⟩ := integratedState_preserved p step r
  unfold MCP.stepTime at hbel ⊢
  rw [if_neg (by simp [hst]), if_neg (by simp [hsl])] at hbel ⊢
  unfold MCP.sleepEval at hbel ⊢
  split_ifs at hbel ⊢ with h1 h2
  · refine Or.inl ⟨by simp, by simp, by simp, ?_⟩
    rw [hA3] at h2
    exact h2
  · refine Or.inr ⟨by simp [hA1, hsl], by simp [hA3], ?_⟩
    rw [hA3] at h2
    exact not_lt.mp h2
  · exfalso
    apply h1
    constructor
    · simpa [MCP.belowLimits] using hbel
    · rw [hA2]
      exact hprev

/-- Along a run of integrating steps whose results all stay below the sleep
limits, the component either has already fallen asleep with zeroed velocities
or is awake with a sleep counter at least the number of steps taken (and at
most the frame threshold once at least one step was taken). -/
theorem sleepRun (p : MCP.IntegrationParams) (step : ℚ) (s : MCP.PhysicsState)
    (n : Nat) (hst : s.stationary = false) (hprev : s.sleepPrevented = false)
    (hsl : s.sleeping = false)
    (hbelow : ∀ k, k < n → MCP.belowLimits (MCP.stepN p step (k + 1) s)) :
    ∀ k, k ≤ n →
      (MCP.stepN p step k s).stationary = false
      ∧ (MCP.stepN p step k s).sleepPrevented = false
      ∧ (((MCP.stepN p step k s).sleeping = true
            ∧ (MCP.stepN p step k s).velocity = 0
            ∧ (MCP.stepN p step k s).angularVelocity = 0)
        ∨ ((MCP.stepN p step k s).sleeping = false
            ∧ k ≤ (MCP.stepN p step k s).sleepCount
            ∧ (1 ≤ k → (MCP.stepN p step k s).sleepCount ≤ p.sleepFrames))) := by
  intro k
  induction k with
  | zero =>
    intro _
    exact ⟨hst, hprev, Or.inr ⟨hsl, Nat.zero_le _, fun h => absurd h (by omega)⟩⟩
  | succ k ih =>
    intro hk1
    have hk : k ≤ n := Nat.le_of_succ_le hk1
    obtain ⟨ih1, ih2, ih3⟩ := ih hk
    have hsucc : MCP.stepN p step (k + 1) s
        = MCP.stepTime p step (MCP.stepN p step k s) := rfl
    obtain ⟨hp1, hp2, hp3, hp4, hp5, hp6, hp7⟩ :=
      stepTime_preserved_fields p step (MCP.stepN p step k s)
    refine ⟨by rw [hsucc, hp3, ih1], by rw [hsucc, hp4, ih2], ?_⟩
    rcases ih3 with ⟨ha, hv, hw⟩ | ⟨ha, hb, hc⟩
    · left
      have hcl : MCP.stepN p step (k + 1) s
          = MCP.clearAccumulators (MCP.stepN p step k s) := by
        rw [hsucc, stepTime_sleeping p step _ ih1 ha ih2]
      rw [hcl]
      exact ⟨by simpa [MCP.clearAccumulators] using ha,
        by simpa [MCP.clearAccumulators] using hv,
        by simpa [MCP.clearAccumulators] using hw⟩
    · have hbel : MCP.belowLimits (MCP.stepTime p step (MCP.stepN p step k s)) := by
        rw [← hsucc]
        exact hbelow k hk1
      rcases stepTime_sleep_progress p step _ ih1 ih2 ha hbel with
        ⟨q1, q2, q3, _⟩ | ⟨q1, q2, q3⟩
      · left
        rw [hsucc]
        exact ⟨q1, q2, q3⟩
      · right
        rw [hsucc]
        refine ⟨q1, ?_, fun _ => ?_⟩
        · rw [q2]
          omega
        · rw [q2]
          exact q3

/-- C4: a non-stationary component that starts awake with sleep not
prevented, and whose linear and angular speeds stay below the sleep limits
for more consecutive `stepTime` calls than the frame threshold, has
`isSleeping() = true` with both velocities zeroed after the run; and one
`addImpulse` call with `isCollision = true` on any sleeping component makes
`isSleeping()` false again immediately. -/
theorem c4_sleep_transition_and_collision_wake (p : MCP.IntegrationParams)
    (step : ℚ) (s : MCP.PhysicsState) (n : Nat)
    (hst : s.stationary = false) (hprev : s.sleepPrevented = false)
    (hsl : s.sleeping = false) (hn : p.sleepFrames < n)
    (hbelow : ∀ k, k < n → MCP.belowLimits (MCP.stepN p step (k + 1) s)) :
    ((MCP.stepN p step n s).sleeping = true
      ∧ (MCP.stepN p step n s).velocity = 0
      ∧ (MCP.stepN p step n s).angularVelocity = 0)
    ∧ (∀ (t : MCP.PhysicsState) (imp : Vec3), t.sleeping = true →
        (MCP.addImpulse imp true t).sleeping = false) := by
  constructor
  · obtain ⟨h1, h2, h3⟩ := sleepRun p step s n hst hprev hsl hbelow n le_rfl
    rcases h3 with h | ⟨ha, hb, hc⟩
    · exact h
    · exfalso
      have h1n : 1 ≤ n := by omega
      have := hc h1n
      omega
  · intro t imp ht
    simp [MCP.addImpulse, ht]

/-- A concrete resting state: zero velocities, awake, sleep not prevented. -/
def sampleResting : MCP.PhysicsState := { sampleState with velocity := 0 }

theorem stepN_one (p : MCP.IntegrationParams) (step : ℚ) (s : MCP.PhysicsState) :
    MCP.stepN p step 1 s = MCP.stepTime p step s := rfl

theorem stepN_two (p : MCP.IntegrationParams) (step : ℚ) (s : MCP.PhysicsState) :
    MCP.stepN p step 2 s = MCP.stepTime p step (MCP.stepTime p step s) := rfl

theorem c4_witness :
    (sampleResting.stationary = false ∧ sampleResting.sleepPrevented = false
        ∧ sampleResting.sleeping = false ∧ sampleParams.sleepFrames < 2
        ∧ (∀ k, k < 2 → MCP.belowLimits (MCP.stepN sampleParams 1 (k + 1) sampleResting)))
      ∧ (((MCP.stepN sampleParams 1 2 sampleResting).sleeping = true
          ∧ (MCP.stepN sampleParams 1 2 sampleResting).velocity = 0
          ∧ (MCP.stepN sampleParams 1 2 sampleResting).angularVelocity = 0)
        ∧ (∀ (t : MCP.PhysicsState) (imp : Vec3), t.sleeping = true →
            (MCP.addImpulse imp true t).sleeping = false)) := by
  have hb : ∀ k, k < 2 → MCP.belowLimits (MCP.stepN sampleParams 1 (k + 1) sampleResting) := by
    intro k hk
    interval_cases k <;>
      norm_num [stepN_one, stepN_two, MCP.stepTime, MCP.integratedState,
        MCP.clearAccumulators, MCP.integrateAngular, MCP.integrateLinear,
        MCP.sleepEval, MCP.belowLimits, MCP.clampSpeed, MCP.preClampVelocity,
        MCP.preDampingVelocity, MCP.preImpulseVelocity, Vec3.normSq,
        sampleResting, sampleState, sampleParams]
  exact ⟨⟨rfl, rfl, rfl, by norm_num [sampleParams], hb⟩,
    c4_sleep_transition_and_collision_wake sampleParams 1 sampleResting 2
      rfl rfl rfl (by norm_num [sampleParams]) hb⟩
